import Mathlib

/-!
Shallow embedding of `logrotate.go` (package `logrotate`), a size-based
rotating log writer.

The Go code is stateful and performs filesystem I/O. We embed it as a pure
state-transition system:

* `Logrotate` mirrors the Go struct (`Filename`, `MaxSize`, `file`, `size`);
  the file handle is an abstract identifier `Option Nat`.
* `World` is ghost state used to state invariants: a fresh-handle counter and,
  for each handle, the number of bytes written to it since it was opened.
* `Env` is an oracle fixing the outcome of each OS primitive one operation
  invokes (`os.Stat`/`os.IsNotExist`, `os.Mkdir`, `os.OpenFile`,
  `File.Close`, `os.Rename`, `File.Write`, `time.Now`), so that failure
  paths are first-class.
* Every operation also returns a `List Event` trace of the I/O calls it
  issued, used to state "no I/O happens" / "exactly one rename" properties.

Go `int64` values are modelled as `Int`; byte payloads as `List Nat` (only
their length is ever inspected by the code).  The `sync.Mutex` is not
modelled: every operation is a single atomic transition.
-/

/-- An opaque OS error value, identified by its message. -/
structure Err where
  msg : String
deriving DecidableEq, Repr

/-- Outcome of the `os.Stat(dir)` call in `createFile`: the Go code only
distinguishes "error satisfying `os.IsNotExist`" from everything else
(success, or any other stat error, both of which skip the `Mkdir`). -/
inductive StatRes
  | ok
  | notExist
  | otherErr
deriving DecidableEq, Repr

/-- A broken-down local time, as produced by `time.Now()` and consumed by
`Format("2006.01.02_15:04:05")`. -/
structure LocalTime where
  year : Nat
  month : Nat
  day : Nat
  hour : Nat
  minute : Nat
  second : Nat
deriving DecidableEq, Repr

/-- Oracle fixing the outcome of each OS primitive during one operation.
`writeN` is the byte count reported by `File.Write`; the OS contract
(`writeN ≤ len p`, error on short write) is assumed as a hypothesis where a
theorem needs it, never baked into the transition function. -/
structure Env where
  statRes : StatRes
  mkdirErr : Option Err
  openErr : Option Err
  closeErr : Option Err
  renameErr : Option Err
  writeN : Nat
  writeErr : Option Err
  now : LocalTime
deriving Repr

/-- The `Logrotate` struct of the source (mutex omitted; `file *os.File`
becomes an abstract handle identifier). -/
structure Logrotate where
  Filename : String
  MaxSize : Int
  file : Option Nat
  size : Int
deriving DecidableEq, Repr

/-- Ghost state: `nextId` supplies fresh handle identifiers; `written h` is
the total number of bytes written through handle `h` since it was opened. -/
structure World where
  nextId : Nat
  written : Nat → Int

/-- The ghost world before any file has been opened. -/
def World.init : World := { nextId := 0, written := fun _ => 0 }

/-- Trace events: one per OS call issued by the code. -/
inductive Event
  | statDir (dir : String)
  | mkdir (dir : String)
  | openFile (path : String)
  | closeF (h : Nat)
  | rename (src : String) (dst : String)
  | fileWrite (h : Nat) (req : Nat) (n : Nat)
deriving DecidableEq, Repr

/-- Whether an event is the `File.Write` call. -/
def Event.isFileWrite : Event → Bool
  | .fileWrite _ _ _ => true
  | _ => false

/-- Whether an event is the `os.Rename` call. -/
def Event.isRename : Event → Bool
  | .rename _ _ => true
  | _ => false

/-- Result of an internal operation (`createFile`, `closeFile`,
`rotateFile`, `Close`): error, new struct state, new ghost world, trace. -/
structure OpOut where
  err : Option Err
  l : Logrotate
  w : World
  tr : List Event

/-- Result of `Write`: bytes written, error, new struct state, new ghost
world, trace. -/
structure WriteOut where
  n : Nat
  err : Option Err
  l : Logrotate
  w : World
  tr : List Event

/-- The `defaultSize` constant of the source (in MB). -/
def defaultSize : Int := 1

/-- The `megabyte` constant of the source. -/
def megabyte : Int := 1024 * 1024

/-- Two's-complement reduction of an unbounded integer into int64 range,
modelling Go's defined wrap-around behavior of `int64` arithmetic on
overflow. -/
def wrap64 (x : Int) : Int := (x + 2 ^ 63) % 2 ^ 64 - 2 ^ 63

/-- Constructor `NewLogrotate`: clamp `size` up to `defaultSize`, store the
limit in bytes; the multiplication `size * megabyte` is Go `int64`
arithmetic, so it wraps for `size ≥ 2^43`.  No filesystem interaction,
cannot fail. -/
def NewLogrotate (filename : String) (size : Int) : Logrotate :=
  let size := if size < defaultSize then defaultSize else size
  { Filename := filename, MaxSize := wrap64 (size * megabyte),
    file := none, size := 0 }

/-- Models `path/filepath.Dir` (simplified: everything before the last
slash, without `Clean` normalisation; `"."` when there is no slash, `"/"`
when the slash is leading).  No claim depends on the exact directory
string, only on which directory-related OS calls happen. -/
def filepathDir (path : String) : String :=
  let cs := path.toList
  if cs.contains '/' then
    let pre := ((cs.reverse.dropWhile fun c => c ≠ '/').drop 1).reverse
    if pre.isEmpty then "/" else String.mk pre
  else "."

/-- The timestamp layout `"2006.01.02_15:04:05"` of Go's `time.Format`:
4-digit year, then 2-digit zero-padded month, day, hour, minute, second. -/
def pad2 (n : Nat) : String := if n < 10 then "0" ++ toString n else toString n

/-- The 4-digit zero-padded year for the Go layout `2006`. -/
def pad4 (n : Nat) : String :=
  if n < 10 then "000" ++ toString n
  else if n < 100 then "00" ++ toString n
  else if n < 1000 then "0" ++ toString n
  else toString n

/-- Go `time.Format("2006.01.02_15:04:05")`: `YYYY.MM.DD_HH:MM:SS`. -/
def formatStamp (t : LocalTime) : String :=
  pad4 t.year ++ "." ++ pad2 t.month ++ "." ++ pad2 t.day ++ "_" ++
  pad2 t.hour ++ ":" ++ pad2 t.minute ++ ":" ++ pad2 t.second

/-- Method `backupName`: the filename plus `"."` plus the formatted current local
time. -/
def Logrotate.backupName (l : Logrotate) (t : LocalTime) : String :=
  l.Filename ++ "." ++ formatStamp t

/-- Method `closeFile`: if no file is open, do nothing and return nil; otherwise
close the handle, clear it regardless of the outcome, and return the close
error. -/
def Logrotate.closeFile (l : Logrotate) (w : World) (env : Env) : OpOut :=
  match l.file with
  | none => ⟨none, l, w, []⟩
  | some h => ⟨env.closeErr, { l with file := none }, w, [Event.closeF h]⟩

/-- Method `createFile`: stat the parent directory and `Mkdir` it only when the
stat error satisfies `os.IsNotExist`; then open the file for append; on
success install the (fresh) handle and reset `size` to 0. -/
def Logrotate.createFile (l : Logrotate) (w : World) (env : Env) : OpOut :=
  let dir := filepathDir l.Filename
  let tr1 := if env.statRes = StatRes.notExist
             then [Event.statDir dir, Event.mkdir dir]
             else [Event.statDir dir]
  let mkErr := if env.statRes = StatRes.notExist then env.mkdirErr else none
  match mkErr with
  | some e => ⟨some e, l, w, tr1⟩
  | none =>
    match env.openErr with
    | some e => ⟨some e, l, w, tr1 ++ [Event.openFile l.Filename]⟩
    | none =>
      ⟨none,
       { l with file := some w.nextId, size := 0 },
       { w with nextId := w.nextId + 1,
                written := fun x => if x = w.nextId then 0 else w.written x },
       tr1 ++ [Event.openFile l.Filename]⟩

/-- Method `rotateFile`: close the current file (abort on error), rename it to the
timestamped backup name (abort on error), then create a fresh file at the
original path. -/
def Logrotate.rotateFile (l : Logrotate) (w : World) (env : Env) : OpOut :=
  let c := l.closeFile w env
  match c.err with
  | some e => ⟨some e, c.l, c.w, c.tr⟩
  | none =>
    let ren := Event.rename c.l.Filename (c.l.backupName env.now)
    match env.renameErr with
    | some e => ⟨some e, c.l, c.w, c.tr ++ [ren]⟩
    | none =>
      let cr := c.l.createFile c.w env
      ⟨cr.err, cr.l, cr.w, c.tr ++ [ren] ++ cr.tr⟩

/-- Method `Write`: reject a payload longer than `MaxSize`; lazily create the file
if none is open; rotate first if the payload would push `size` past
`MaxSize`; then write the payload through the handle, adding the reported
byte count to `size` (also on a short write).  The final branch mirrors the
unconditional `l.file.Write(p)` of the source: with no open handle it would
be a nil dereference; that branch is unreachable, since every successful
creation or rotation installs a handle (see the path lemmas below). -/
def Logrotate.write (l : Logrotate) (w : World) (env : Env) (p : List Nat) : WriteOut :=
  let writeLen : Int := (p.length : Int)
  if writeLen > l.MaxSize then
    ⟨0, some ⟨"write length exceeds maximum file size"⟩, l, w, []⟩
  else
    let c := match l.file with
             | none => l.createFile w env
             | some _ => ⟨none, l, w, []⟩
    match c.err with
    | some e => ⟨0, some e, c.l, c.w, c.tr⟩
    | none =>
      let r := if writeLen + c.l.size > c.l.MaxSize
               then c.l.rotateFile c.w env
               else ⟨none, c.l, c.w, []⟩
      match r.err with
      | some e => ⟨0, some e, r.l, r.w, c.tr ++ r.tr⟩
      | none =>
        match r.l.file with
        | some hd =>
          ⟨env.writeN, env.writeErr,
           { r.l with size := r.l.size + (env.writeN : Int) },
           { r.w with written := fun x => if x = hd
                                          then r.w.written hd + (env.writeN : Int)
                                          else r.w.written x },
           c.tr ++ r.tr ++ [Event.fileWrite hd p.length env.writeN]⟩
        | none =>
          ⟨0, some ⟨"panic: nil pointer dereference"⟩, r.l, r.w, c.tr ++ r.tr⟩

/-- Method `Close`: close the current file under the lock. -/
def Logrotate.close (l : Logrotate) (w : World) (env : Env) : OpOut :=
  l.closeFile w env

/-- States reachable from a freshly constructed writer by any sequence of
`Write` and `Close` calls, under arbitrary I/O outcomes subject only to the
OS contract that `File.Write` reports at most `len p` bytes written. -/
inductive Reachable : Logrotate → World → Prop
  | init (filename : String) (size : Int) :
      Reachable (NewLogrotate filename size) World.init
  | write {l : Logrotate} {w : World} (env : Env) (p : List Nat)
      (hWf : env.writeN ≤ p.length) (h : Reachable l w) :
      Reachable (l.write w env p).l (l.write w env p).w
  | close {l : Logrotate} {w : World} (env : Env) (h : Reachable l w) :
      Reachable (l.close w env).l (l.close w env).w

/-- The error produced by `createFile` depends only on the environment:
the mkdir error when the directory stat reports not-exist, else the open
error. -/
def Env.createErr (env : Env) : Option Err :=
  match (if env.statRes = StatRes.notExist then env.mkdirErr else none) with
  | some e => some e
  | none => env.openErr

/-- The trace of OS calls of a successful `createFile`: stat, conditional
mkdir, open. -/
def createSteps (l : Logrotate) (env : Env) : List Event :=
  (if env.statRes = StatRes.notExist
   then [Event.statDir (filepathDir l.Filename), Event.mkdir (filepathDir l.Filename)]
   else [Event.statDir (filepathDir l.Filename)]) ++ [Event.openFile l.Filename]

/-! ### Sample values used by witness theorems -/

/-- A sample timestamp. -/
def tSample : LocalTime := ⟨2026, 10, 11, 9, 30, 5⟩

/-- An environment where every OS call succeeds, the parent directory
already exists, and `File.Write` reports `n` bytes written with no error. -/
def envOkN (n : Nat) : Env :=
  { statRes := StatRes.ok, mkdirErr := none, openErr := none,
    closeErr := none, renameErr := none, writeN := n, writeErr := none,
    now := tSample }

/-- A sample writer state with an open handle `0` and 6 bytes accounted. -/
def lOpen : Logrotate := { Filename := "d/app.log", MaxSize := 8, file := some 0, size := 6 }

/-- The ghost world matching `lOpen`: handle `0` allocated, 6 bytes written
through it. -/
def wOpen : World := { nextId := 1, written := fun x => if x = 0 then 6 else 0 }

/-- A sample writer state with an open handle `5` and an empty current
file. -/
def lFresh : Logrotate := { Filename := "app.log", MaxSize := 4, file := some 5, size := 0 }

/-- The ghost world matching `lFresh`: handles 0–5 allocated, nothing
written through handle 5 yet. -/
def wFresh : World := { nextId := 6, written := fun _ => 0 }

/-- An environment whose close call fails. -/
def envCloseFail : Env :=
  { envOkN 3 with closeErr := some ⟨"close failed"⟩ }

/-- An environment for a first write into a missing directory: the stat
reports not-exist, mkdir and open succeed, and the empty write reports 0
bytes. -/
def envCreate : Env :=
  { statRes := StatRes.notExist, mkdirErr := none, openErr := none,
    closeErr := none, renameErr := none, writeN := 0, writeErr := none,
    now := tSample }

/-! ### Theorems -/

theorem wrap64_eq_self (x : Int) (h1 : -(2 ^ 63) ≤ x) (h2 : x < 2 ^ 63) :
    wrap64 x = x := by
  unfold wrap64
  omega

/-- Counterexample to C5 as stated: at requested size `2^43` the int64
multiplication `size * megabyte` wraps, so the stored threshold is
`-2^63` — not `max(requested, 1) * 1048576` — and is far below 1 MiB. -/
theorem newLogrotate_overflow_cex :
    (NewLogrotate "app.log" 8796093022208).MaxSize = -9223372036854775808 ∧
    (NewLogrotate "app.log" 8796093022208).MaxSize ≠
      max 8796093022208 1 * 1048576 ∧
    ¬(1048576 ≤ (NewLogrotate "app.log" 8796093022208).MaxSize) := by
  refine ⟨?_, ?_, ?_⟩ <;> decide

/-- C5 (amended): for every path and every requested megabyte value,
construction stores as the byte threshold the int64 two's-complement wrap
of `max(requested, 1) * 1048576`; whenever that product fits in int64 —
that is, for every requested value below `2^43`, including all zero and
negative values — the threshold equals the product exactly and is
therefore never below 1 MiB.  Construction touches no filesystem state
(the result has no handle and zero size, and the constructor performs no
modelled I/O) and cannot fail (it is a total function into `Logrotate`). -/
theorem newLogrotate_clamped_threshold (filename : String) (size : Int)
    (hNoOv : max size 1 * 1048576 < 2 ^ 63) :
    NewLogrotate filename size =
      { Filename := filename, MaxSize := max size 1 * 1048576,
        file := none, size := 0 } ∧
    1048576 ≤ (NewLogrotate filename size).MaxSize := by
  have hmax : (if size < defaultSize then defaultSize else size) = max size 1 := by
    unfold defaultSize
    split <;> omega
  have hge : (1048576 : Int) ≤ max size 1 * 1048576 := by
    nlinarith [le_max_right size 1]
  have hself : wrap64 (max size 1 * 1048576) = max size 1 * 1048576 :=
    wrap64_eq_self _ (by linarith) hNoOv
  have hMS : NewLogrotate filename size =
      { Filename := filename, MaxSize := max size 1 * 1048576,
        file := none, size := 0 } := by
    simp only [NewLogrotate, megabyte, hmax]
    have h2 : (1024 * 1024 : Int) = 1048576 := by norm_num
    rw [h2, hself]
  refine ⟨hMS, ?_⟩
  rw [hMS]
  exact hge

/-- Witness for `newLogrotate_clamped_threshold`: a requested size of 0 is
clamped to 1 MB, i.e. a 1 MiB byte threshold. -/
theorem newLogrotate_clamped_threshold_wit :
    NewLogrotate "app.log" 0 =
      { Filename := "app.log", MaxSize := max 0 1 * 1048576,
        file := none, size := 0 } ∧
    1048576 ≤ (NewLogrotate "app.log" 0).MaxSize :=
  newLogrotate_clamped_threshold "app.log" 0 (by decide)

/-- C2: a payload longer than `MaxSize` is rejected in every writer state:
`Write` returns 0 bytes and an error, emits no I/O events, and leaves both
the writer state and the world untouched. -/
theorem write_oversized_rejected (l : Logrotate) (w : World) (env : Env)
    (p : List Nat) (hLen : (p.length : Int) > l.MaxSize) :
    l.write w env p =
      ⟨0, some ⟨"write length exceeds maximum file size"⟩, l, w, []⟩ := by
  simp [Logrotate.write, hLen]

/-- Witness for `write_oversized_rejected`: a 9-byte payload against an
8-byte threshold. -/
theorem write_oversized_rejected_wit :
    lOpen.write wOpen (envOkN 0) [1, 2, 3, 4, 5, 6, 7, 8, 9] =
      ⟨0, some ⟨"write length exceeds maximum file size"⟩, lOpen, wOpen, []⟩ :=
  write_oversized_rejected lOpen wOpen (envOkN 0) [1, 2, 3, 4, 5, 6, 7, 8, 9]
    (by decide)

/-- C6: `Close` with no open file returns no error and changes nothing;
after any `Close` the handle is absent regardless of the outcome, and hence
a second consecutive `Close` is a no-op returning no error. -/
theorem close_idempotent (l l2 : Logrotate) (w w2 : World)
    (env env2 env3 : Env) (hF : l.file = none) :
    l.close w env = ⟨none, l, w, []⟩ ∧
    (l2.close w2 env2).l.file = none ∧
    (l2.close w2 env2).l.close (l2.close w2 env2).w env3 =
      ⟨none, (l2.close w2 env2).l, (l2.close w2 env2).w, []⟩ := by
  refine ⟨?_, ?_, ?_⟩
  · simp [Logrotate.close, Logrotate.closeFile, hF]
  · cases h2 : l2.file <;> simp [Logrotate.close, Logrotate.closeFile, h2]
  · cases h2 : l2.file <;> simp [Logrotate.close, Logrotate.closeFile, h2]

/-- Witness for `close_idempotent`: the never-opened writer and `lOpen`
(close on it clears handle 0; the repeated close is a no-op). -/
theorem close_idempotent_wit :
    (NewLogrotate "app.log" 1).close World.init (envOkN 0) =
      ⟨none, NewLogrotate "app.log" 1, World.init, []⟩ ∧
    (lOpen.close wOpen (envOkN 0)).l.file = none ∧
    (lOpen.close wOpen (envOkN 0)).l.close (lOpen.close wOpen (envOkN 0)).w (envOkN 0) =
      ⟨none, (lOpen.close wOpen (envOkN 0)).l, (lOpen.close wOpen (envOkN 0)).w, []⟩ :=
  close_idempotent (NewLogrotate "app.log" 1) lOpen World.init wOpen
    (envOkN 0) (envOkN 0) (envOkN 0) rfl

/-! ### Path characterization lemmas -/

theorem createFile_err (l : Logrotate) (w : World) (env : Env) :
    (l.createFile w env).err = env.createErr := by
  cases hs : env.statRes <;> cases hm : env.mkdirErr <;> cases ho : env.openErr <;>
    simp [Logrotate.createFile, Env.createErr, hs, hm, ho]

theorem createFile_fail (l : Logrotate) (w : World) (env : Env) (e : Err)
    (he : env.createErr = some e) :
    (l.createFile w env).err = some e ∧ (l.createFile w env).l = l ∧
    (l.createFile w env).w = w := by
  cases hs : env.statRes <;> cases hm : env.mkdirErr <;> cases ho : env.openErr <;>
    simp_all [Logrotate.createFile, Env.createErr, hs, hm, ho]

theorem createFile_ok (l : Logrotate) (w : World) (env : Env)
    (he : env.createErr = none) :
    l.createFile w env =
      ⟨none, { l with file := some w.nextId, size := 0 },
       { w with nextId := w.nextId + 1,
                written := fun x => if x = w.nextId then 0 else w.written x },
       createSteps l env⟩ := by
  cases hs : env.statRes <;> cases hm : env.mkdirErr <;> cases ho : env.openErr <;>
    simp_all [Logrotate.createFile, Env.createErr, createSteps, hs, hm, ho]

theorem rotateFile_closefail (l : Logrotate) (w : World) (env : Env)
    (hd : Nat) (e : Err) (hF : l.file = some hd) (hc : env.closeErr = some e) :
    l.rotateFile w env = ⟨some e, { l with file := none }, w, [Event.closeF hd]⟩ := by
  simp [Logrotate.rotateFile, Logrotate.closeFile, hF, hc]

theorem rotateFile_renamefail (l : Logrotate) (w : World) (env : Env)
    (hd : Nat) (e : Err) (hF : l.file = some hd) (hc : env.closeErr = none)
    (hr : env.renameErr = some e) :
    l.rotateFile w env =
      ⟨some e, { l with file := none }, w,
       [Event.closeF hd, Event.rename l.Filename (l.backupName env.now)]⟩ := by
  simp [Logrotate.rotateFile, Logrotate.closeFile, Logrotate.backupName, hF, hc, hr]

theorem rotateFile_createfail (l : Logrotate) (w : World) (env : Env)
    (hd : Nat) (e : Err) (hF : l.file = some hd) (hc : env.closeErr = none)
    (hr : env.renameErr = none) (he : env.createErr = some e) :
    (l.rotateFile w env).err = some e ∧
    (l.rotateFile w env).l = { l with file := none } ∧
    (l.rotateFile w env).w = w ∧
    (l.rotateFile w env).tr =
      [Event.closeF hd, Event.rename l.Filename (l.backupName env.now)] ++
        (({ l with file := none } : Logrotate).createFile w env).tr := by
  have hcf := createFile_fail { l with file := none } w env e he
  simp only [Logrotate.rotateFile, Logrotate.closeFile, hF, hc, hr]
  simp_all [Logrotate.backupName]

theorem rotateFile_ok (l : Logrotate) (w : World) (env : Env)
    (hd : Nat) (hF : l.file = some hd) (hc : env.closeErr = none)
    (hr : env.renameErr = none) (he : env.createErr = none) :
    l.rotateFile w env =
      ⟨none, { l with file := some w.nextId, size := 0 },
       { w with nextId := w.nextId + 1,
                written := fun x => if x = w.nextId then 0 else w.written x },
       [Event.closeF hd, Event.rename l.Filename (l.backupName env.now)] ++
         createSteps { l with file := none } env⟩ := by
  have hcf := createFile_ok { l with file := none } w env he
  simp only [Logrotate.rotateFile, Logrotate.closeFile, hF, hc, hr]
  simp_all [Logrotate.backupName, createSteps]

theorem createSteps_file_irrel (l : Logrotate) (env : Env) :
    createSteps { l with file := none } env = createSteps l env := rfl

/-- Behavior of `Write` when a file is open and the payload fits: a single `File.Write`
through the existing handle, size and ghost accounting bumped by the
reported count. -/
theorem write_no_rotation (l : Logrotate) (w : World) (env : Env)
    (p : List Nat) (hd : Nat) (hF : l.file = some hd)
    (hBig : ¬((p.length : Int) > l.MaxSize))
    (hOver : ¬((p.length : Int) + l.size > l.MaxSize)) :
    l.write w env p =
      ⟨env.writeN, env.writeErr,
       { l with size := l.size + (env.writeN : Int) },
       { w with written := fun x => if x = hd
                                    then w.written hd + (env.writeN : Int)
                                    else w.written x },
       [Event.fileWrite hd p.length env.writeN]⟩ := by
  simp only [Logrotate.write, hF]
  rw [if_neg hBig, if_neg hOver]
  simp [hF]

/-- Behavior of `Write` when a file is open, the payload fits but would overflow, and
every rotation step succeeds: close, rename, recreate, then one
`File.Write` through the fresh handle starting from size 0. -/
theorem write_rotation_ok (l : Logrotate) (w : World) (env : Env)
    (p : List Nat) (hd : Nat) (hF : l.file = some hd)
    (hBig : ¬((p.length : Int) > l.MaxSize))
    (hOver : (p.length : Int) + l.size > l.MaxSize)
    (hc : env.closeErr = none) (hr : env.renameErr = none)
    (he : env.createErr = none) :
    (l.write w env p).n = env.writeN ∧
    (l.write w env p).err = env.writeErr ∧
    (l.write w env p).l =
      { l with file := some w.nextId, size := (env.writeN : Int) } ∧
    (l.write w env p).w.nextId = w.nextId + 1 ∧
    (l.write w env p).w.written w.nextId = (env.writeN : Int) ∧
    (∀ x, x ≠ w.nextId → (l.write w env p).w.written x = w.written x) ∧
    (l.write w env p).tr =
      [Event.closeF hd, Event.rename l.Filename (l.backupName env.now)] ++
        createSteps l env ++ [Event.fileWrite w.nextId p.length env.writeN] := by
  have hrot := rotateFile_ok l w env hd hF hc hr he
  simp only [Logrotate.write, hF]
  rw [if_neg hBig, if_pos hOver, hrot]
  refine ⟨rfl, rfl, by simp, rfl, by simp, ?_, by simp [createSteps_file_irrel]⟩
  intro x hx
  simp [hx]

/-- Behavior of `Write` when no file is open and creation succeeds: lazy creation, no
rotation (the fresh size is 0), single `File.Write` through the new handle. -/
theorem write_create_ok (l : Logrotate) (w : World) (env : Env)
    (p : List Nat) (hF : l.file = none)
    (hBig : ¬((p.length : Int) > l.MaxSize))
    (he : env.createErr = none) :
    (l.write w env p).n = env.writeN ∧
    (l.write w env p).err = env.writeErr ∧
    (l.write w env p).l =
      { l with file := some w.nextId, size := (env.writeN : Int) } ∧
    (l.write w env p).w.nextId = w.nextId + 1 ∧
    (l.write w env p).w.written w.nextId = (env.writeN : Int) ∧
    (∀ x, x ≠ w.nextId → (l.write w env p).w.written x = w.written x) ∧
    (l.write w env p).tr =
      createSteps l env ++ [Event.fileWrite w.nextId p.length env.writeN] := by
  have hcf := createFile_ok l w env he
  have h2 : ¬((p.length : Int) + (0 : Int) > l.MaxSize) := by simpa using hBig
  simp only [Logrotate.write, hF]
  rw [if_neg hBig, hcf]
  refine ⟨by simp [hBig, h2], by simp [hBig, h2], by simp [hBig, h2],
    by simp [hBig, h2], by simp [hBig, h2], ?_, by simp [hBig, h2]⟩
  intro x hx
  simp [hBig, h2, hx]

/-- Behavior of `Write` when no file is open and creation fails: the error is returned
with 0 bytes, state and world unchanged. -/
theorem write_create_fail (l : Logrotate) (w : World) (env : Env)
    (p : List Nat) (e : Err) (hF : l.file = none)
    (hBig : ¬((p.length : Int) > l.MaxSize))
    (he : env.createErr = some e) :
    (l.write w env p).n = 0 ∧ (l.write w env p).err = some e ∧
    (l.write w env p).l = l ∧ (l.write w env p).w = w ∧
    (l.write w env p).tr = (l.createFile w env).tr := by
  obtain ⟨h1, h2, h3⟩ := createFile_fail l w env e he
  simp only [Logrotate.write, hF]
  rw [if_neg hBig]
  simp [h1, h2, h3]

/-- Behavior of `Write` when rotation is triggered but the close inside it fails: the
close error is returned with 0 bytes, no rename and no reopen are
attempted, the handle is cleared, everything else untouched. -/
theorem write_rotation_closefail (l : Logrotate) (w : World) (env : Env)
    (p : List Nat) (hd : Nat) (e : Err) (hF : l.file = some hd)
    (hBig : ¬((p.length : Int) > l.MaxSize))
    (hOver : (p.length : Int) + l.size > l.MaxSize)
    (hc : env.closeErr = some e) :
    l.write w env p = ⟨0, some e, { l with file := none }, w, [Event.closeF hd]⟩ := by
  have hrot := rotateFile_closefail l w env hd e hF hc
  simp only [Logrotate.write, hF]
  rw [if_neg hBig, if_pos hOver, hrot]
  simp

/-- Behavior of `Write` when rotation is triggered, the close succeeds but the rename
fails: the rename error is returned with 0 bytes, the handle is cleared,
no reopen is attempted. -/
theorem write_rotation_renamefail (l : Logrotate) (w : World) (env : Env)
    (p : List Nat) (hd : Nat) (e : Err) (hF : l.file = some hd)
    (hBig : ¬((p.length : Int) > l.MaxSize))
    (hOver : (p.length : Int) + l.size > l.MaxSize)
    (hc : env.closeErr = none) (hr : env.renameErr = some e) :
    l.write w env p =
      ⟨0, some e, { l with file := none }, w,
       [Event.closeF hd, Event.rename l.Filename (l.backupName env.now)]⟩ := by
  have hrot := rotateFile_renamefail l w env hd e hF hc hr
  simp only [Logrotate.write, hF]
  rw [if_neg hBig, if_pos hOver, hrot]
  simp

/-- Behavior of `Write` when rotation is triggered, close and rename succeed but the
recreation fails: the error is returned with 0 bytes, no handle is open. -/
theorem write_rotation_createfail (l : Logrotate) (w : World) (env : Env)
    (p : List Nat) (hd : Nat) (e : Err) (hF : l.file = some hd)
    (hBig : ¬((p.length : Int) > l.MaxSize))
    (hOver : (p.length : Int) + l.size > l.MaxSize)
    (hc : env.closeErr = none) (hr : env.renameErr = none)
    (he : env.createErr = some e) :
    (l.write w env p).n = 0 ∧ (l.write w env p).err = some e ∧
    (l.write w env p).l = { l with file := none } ∧
    (l.write w env p).w = w ∧
    (l.write w env p).tr =
      [Event.closeF hd, Event.rename l.Filename (l.backupName env.now)] ++
        (({ l with file := none } : Logrotate).createFile w env).tr := by
  obtain ⟨h1, h2, h3, h4⟩ := rotateFile_createfail l w env hd e hF hc hr he
  simp only [Logrotate.write, hF]
  rw [if_neg hBig, if_pos hOver]
  simp [h1, h2, h3, h4]

/-- The inductive invariant of reachable states: the size counter is
nonnegative, never exceeds the threshold when the threshold is
nonnegative (a wrapped-negative threshold rejects every write, pinning
the counter at 0, which the `max` bound covers), and equals the ghost
count of bytes written through the open handle since that handle was
created. -/
theorem reachable_invariant {l : Logrotate} {w : World} (h : Reachable l w) :
    0 ≤ l.size ∧ l.size ≤ max l.MaxSize 0 ∧
    ∀ hd, l.file = some hd → l.size = w.written hd := by
  induction h with
  | init filename size =>
    refine ⟨le_refl 0, le_max_right _ 0, ?_⟩
    intro hd hFd
    simp [NewLogrotate] at hFd
  | close env h ih =>
    obtain ⟨i0, iLe, iW⟩ := ih
    rename_i l w
    rcases hf : l.file with _ | hd
    · have hcl : l.close w env = ⟨none, l, w, []⟩ := by
        simp [Logrotate.close, Logrotate.closeFile, hf]
      rw [hcl]
      exact ⟨i0, iLe, iW⟩
    · have hcl : l.close w env =
          ⟨env.closeErr, { l with file := none }, w, [Event.closeF hd]⟩ := by
        simp [Logrotate.close, Logrotate.closeFile, hf]
      rw [hcl]
      refine ⟨i0, iLe, ?_⟩
      intro hd2 hFd
      exact absurd hFd (by simp)
  | write env p hWf h ih =>
    obtain ⟨i0, iLe, iW⟩ := ih
    rename_i l w
    by_cases hBig : (p.length : Int) > l.MaxSize
    · simp only [Logrotate.write]
      rw [if_pos hBig]
      exact ⟨i0, iLe, iW⟩
    · rcases hf : l.file with _ | hd
      · rcases hce : env.createErr with _ | e
        · obtain ⟨_, _, hL, _, hWr, _, _⟩ := write_create_ok l w env p hf hBig hce
          rw [hL]
          refine ⟨?_, ?_, ?_⟩
          · show (0 : Int) ≤ (env.writeN : Int)
            exact_mod_cast Nat.zero_le _
          · show (env.writeN : Int) ≤ max l.MaxSize 0
            omega
          · intro hd2 hFd
            have hhd : w.nextId = hd2 := Option.some.inj hFd
            subst hhd
            exact hWr.symm
        · obtain ⟨_, _, hL, hW, _⟩ := write_create_fail l w env p e hf hBig hce
          rw [hL, hW]
          exact ⟨i0, iLe, iW⟩
      · by_cases hOver : (p.length : Int) + l.size > l.MaxSize
        · rcases hcl : env.closeErr with _ | e
          · rcases hre : env.renameErr with _ | e
            · rcases hce : env.createErr with _ | e
              · obtain ⟨_, _, hL, _, hWr, _, _⟩ :=
                  write_rotation_ok l w env p hd hf hBig hOver hcl hre hce
                rw [hL]
                refine ⟨?_, ?_, ?_⟩
                · show (0 : Int) ≤ (env.writeN : Int)
                  exact_mod_cast Nat.zero_le _
                · show (env.writeN : Int) ≤ max l.MaxSize 0
                  omega
                · intro hd2 hFd
                  have hhd : w.nextId = hd2 := Option.some.inj hFd
                  subst hhd
                  exact hWr.symm
              · obtain ⟨_, _, hL, hW, _⟩ :=
                  write_rotation_createfail l w env p hd e hf hBig hOver hcl hre hce
                rw [hL, hW]
                refine ⟨i0, iLe, ?_⟩
                intro hd2 hFd
                exact absurd hFd (by simp)
            · rw [write_rotation_renamefail l w env p hd e hf hBig hOver hcl hre]
              refine ⟨i0, iLe, ?_⟩
              intro hd2 hFd
              exact absurd hFd (by simp)
          · rw [write_rotation_closefail l w env p hd e hf hBig hOver hcl]
            refine ⟨i0, iLe, ?_⟩
            intro hd2 hFd
            exact absurd hFd (by simp)
        · rw [write_no_rotation l w env p hd hf hBig hOver]
          refine ⟨?_, ?_, ?_⟩
          · show (0 : Int) ≤ l.size + (env.writeN : Int)
            omega
          · show l.size + (env.writeN : Int) ≤ max l.MaxSize 0
            omega
          · intro hd2 hFd
            have hf2 : l.file = some hd2 := hFd
            rw [hf] at hf2
            have hhd : hd = hd2 := Option.some.inj hf2
            show l.size + (env.writeN : Int) =
              (if hd2 = hd then w.written hd + (env.writeN : Int) else w.written hd2)
            rw [if_pos hhd.symm, iW hd hf]

theorem createSteps_no_fileWrite (l : Logrotate) (env : Env) :
    (createSteps l env).filter Event.isFileWrite = [] := by
  cases hs : env.statRes <;> simp [createSteps, hs, Event.isFileWrite]

/-- Counterexample to C3 as stated: construction itself is a reachable
state, and at requested size `2^43` the wrapped threshold is `-2^63`, so
the fresh state — size 0, no write accepted yet — already exceeds the
threshold by more than the (nonexistent, hence zero-length) last accepted
write. -/
theorem reachable_size_bound_cex :
    Reachable (NewLogrotate "app.log" 8796093022208) World.init ∧
    (NewLogrotate "app.log" 8796093022208).size = 0 ∧
    (NewLogrotate "app.log" 8796093022208).MaxSize = -9223372036854775808 ∧
    ¬((NewLogrotate "app.log" 8796093022208).size ≤
        (NewLogrotate "app.log" 8796093022208).MaxSize + 0) :=
  ⟨Reachable.init "app.log" 8796093022208, by decide, by decide, by decide⟩

/-- C3 (amended): in every state reachable from a freshly constructed
writer by any sequence of `Write` and `Close` calls (under the OS contract
that a write reports at most the requested byte count), provided the
stored threshold is nonnegative — which holds exactly when the requested
size stays below `2^43`, so that the constructor's int64 multiplication
does not wrap — the size counter is nonnegative, equals the bytes written
through the currently open handle since that handle was created, and never
exceeds `MaxSize` at all: a fortiori never by more than the last accepted
write, since rotation happens before a write that would overflow, never
after. -/
theorem reachable_size_accounting {l : Logrotate} {w : World}
    (h : Reachable l w) (hM : 0 ≤ l.MaxSize) :
    0 ≤ l.size ∧ l.size ≤ l.MaxSize ∧
    ∀ hd, l.file = some hd → l.size = w.written hd := by
  obtain ⟨i0, iLe, iW⟩ := reachable_invariant h
  exact ⟨i0, by omega, iW⟩

/-- Witness for `reachable_size_accounting`: the state reached from a fresh
writer by one successful 3-byte write. -/
theorem reachable_size_accounting_wit :
    0 ≤ ((NewLogrotate "app.log" 1).write World.init (envOkN 3) [1, 2, 3]).l.size ∧
    ((NewLogrotate "app.log" 1).write World.init (envOkN 3) [1, 2, 3]).l.size ≤
      ((NewLogrotate "app.log" 1).write World.init (envOkN 3) [1, 2, 3]).l.MaxSize ∧
    ∀ hd,
      ((NewLogrotate "app.log" 1).write World.init (envOkN 3) [1, 2, 3]).l.file = some hd →
      ((NewLogrotate "app.log" 1).write World.init (envOkN 3) [1, 2, 3]).l.size =
        ((NewLogrotate "app.log" 1).write World.init (envOkN 3) [1, 2, 3]).w.written hd :=
  reachable_size_accounting
    (Reachable.write (envOkN 3) [1, 2, 3] (by decide) (Reachable.init "app.log" 1))
    (by decide)

/-- C1: with an open file, a payload that fits the threshold but would push
the counter past it triggers exactly one rotation before the write: the
trace is close, one single rename of the file to the timestamped backup
name `path ++ "." ++ YYYY.MM.DD_HH:MM:SS`, a fresh open at the original
path, then the write; the state right after rotation (before the write)
has size 0, and after a successful full write the counter is exactly
`len p`. -/
theorem write_rotates_exactly_once (l : Logrotate) (w : World) (env : Env)
    (p : List Nat) (hd : Nat) (hF : l.file = some hd)
    (hLen : (p.length : Int) ≤ l.MaxSize)
    (hOver : l.size + (p.length : Int) > l.MaxSize)
    (hStat : env.statRes = StatRes.ok)
    (hc : env.closeErr = none) (hr : env.renameErr = none)
    (ho : env.openErr = none)
    (hN : env.writeN = p.length) (hE : env.writeErr = none) :
    (l.write w env p).tr =
      [Event.closeF hd,
       Event.rename l.Filename (l.Filename ++ "." ++ formatStamp env.now),
       Event.statDir (filepathDir l.Filename),
       Event.openFile l.Filename,
       Event.fileWrite w.nextId p.length p.length] ∧
    ((l.write w env p).tr.filter Event.isRename).length = 1 ∧
    (l.rotateFile w env).l.size = 0 ∧
    (l.write w env p).l.file = some w.nextId ∧
    (l.write w env p).n = p.length ∧
    (l.write w env p).err = none ∧
    (l.write w env p).l.size = (p.length : Int) := by
  have hBig : ¬((p.length : Int) > l.MaxSize) := not_lt.mpr hLen
  have hOver' : (p.length : Int) + l.size > l.MaxSize := by omega
  have hce : env.createErr = none := by
    simp [Env.createErr, hStat, ho]
  obtain ⟨hn, he, hL, _, _, _, htr⟩ :=
    write_rotation_ok l w env p hd hF hBig hOver' hc hr hce
  have hrot := rotateFile_ok l w env hd hF hc hr hce
  refine ⟨?_, ?_, ?_, ?_, ?_, ?_, ?_⟩
  · rw [htr]
    simp [createSteps, hStat, hN, Logrotate.backupName]
  · rw [htr]
    simp [createSteps, hStat, Event.isRename]
  · rw [hrot]
  · rw [hL]
  · rw [hn, hN]
  · rw [he, hE]
  · rw [hL, hN]

/-- Witness for `write_rotates_exactly_once`: a 3-byte payload on a state
with 6 of 8 bytes used. -/
theorem write_rotates_exactly_once_wit :
    (lOpen.write wOpen (envOkN 3) [9, 9, 9]).tr =
      [Event.closeF 0,
       Event.rename "d/app.log" ("d/app.log" ++ "." ++ formatStamp tSample),
       Event.statDir (filepathDir "d/app.log"),
       Event.openFile "d/app.log",
       Event.fileWrite 1 3 3] ∧
    ((lOpen.write wOpen (envOkN 3) [9, 9, 9]).tr.filter Event.isRename).length = 1 ∧
    (lOpen.rotateFile wOpen (envOkN 3)).l.size = 0 ∧
    (lOpen.write wOpen (envOkN 3) [9, 9, 9]).l.file = some 1 ∧
    (lOpen.write wOpen (envOkN 3) [9, 9, 9]).n = 3 ∧
    (lOpen.write wOpen (envOkN 3) [9, 9, 9]).err = none ∧
    (lOpen.write wOpen (envOkN 3) [9, 9, 9]).l.size = (3 : Int) :=
  write_rotates_exactly_once lOpen wOpen (envOkN 3) [9, 9, 9] 0 rfl
    (by decide) (by decide) rfl rfl rfl rfl rfl rfl

/-- C4: an accepted payload, with the pre-write phase succeeding, reaches
exactly one `File.Write` call, whole, on exactly one handle (the finally
open one); the returned count is exactly what that call reports, the size
counter grows by exactly that count (from 0 if a file was just created or
rotated in, else from the previous size), and any write error — e.g. a
short write — is returned alongside the count. -/
theorem write_never_splits (l : Logrotate) (w : World) (env : Env)
    (p : List Nat)
    (hLen : (p.length : Int) ≤ l.MaxSize)
    (hc : env.closeErr = none) (hr : env.renameErr = none)
    (hce : env.createErr = none) :
    ∃ hd, (l.write w env p).l.file = some hd ∧
      (l.write w env p).tr.filter Event.isFileWrite =
        [Event.fileWrite hd p.length env.writeN] ∧
      (l.write w env p).n = env.writeN ∧
      (l.write w env p).err = env.writeErr ∧
      (l.write w env p).l.size =
        (if l.file = none ∨ (p.length : Int) + l.size > l.MaxSize
         then 0 else l.size) + (env.writeN : Int) := by
  have hBig : ¬((p.length : Int) > l.MaxSize) := not_lt.mpr hLen
  rcases hf : l.file with _ | hd
  · obtain ⟨hn, he, hL, _, _, _, htr⟩ := write_create_ok l w env p hf hBig hce
    refine ⟨w.nextId, by rw [hL], ?_, hn, he, ?_⟩
    · rw [htr, List.filter_append, createSteps_no_fileWrite]
      simp [Event.isFileWrite]
    · rw [hL]
      simp [hf]
  · by_cases hOver : (p.length : Int) + l.size > l.MaxSize
    · obtain ⟨hn, he, hL, _, _, _, htr⟩ :=
        write_rotation_ok l w env p hd hf hBig hOver hc hr hce
      refine ⟨w.nextId, by rw [hL], ?_, hn, he, ?_⟩
      · rw [htr, List.filter_append, List.filter_append, createSteps_no_fileWrite]
        simp [Event.isFileWrite]
      · rw [hL]
        simp [hf, hOver]
    · rw [write_no_rotation l w env p hd hf hBig hOver]
      refine ⟨hd, hf, ?_, rfl, rfl, ?_⟩
      · simp [Event.isFileWrite]
      · simp [hf, hOver]

/-- Witness for `write_never_splits`: a genuinely short write — 1 of the 2
requested bytes reported, together with a write error — on an open file
with room. -/
theorem write_never_splits_wit :
    ∃ hd,
      (lOpen.write wOpen { envOkN 1 with writeErr := some ⟨"short write"⟩ } [7, 7]).l.file =
        some hd ∧
      (lOpen.write wOpen { envOkN 1 with writeErr := some ⟨"short write"⟩ } [7, 7]).tr.filter
          Event.isFileWrite =
        [Event.fileWrite hd 2 ({ envOkN 1 with writeErr := some ⟨"short write"⟩ } : Env).writeN] ∧
      (lOpen.write wOpen { envOkN 1 with writeErr := some ⟨"short write"⟩ } [7, 7]).n =
        ({ envOkN 1 with writeErr := some ⟨"short write"⟩ } : Env).writeN ∧
      (lOpen.write wOpen { envOkN 1 with writeErr := some ⟨"short write"⟩ } [7, 7]).err =
        ({ envOkN 1 with writeErr := some ⟨"short write"⟩ } : Env).writeErr ∧
      (lOpen.write wOpen { envOkN 1 with writeErr := some ⟨"short write"⟩ } [7, 7]).l.size =
        (if lOpen.file = none ∨ ((2 : Nat) : Int) + lOpen.size > lOpen.MaxSize
         then 0 else lOpen.size) +
          (({ envOkN 1 with writeErr := some ⟨"short write"⟩ } : Env).writeN : Int) :=
  write_never_splits lOpen wOpen { envOkN 1 with writeErr := some ⟨"short write"⟩ } [7, 7]
    (by decide) rfl rfl rfl

/-- C7: if the close step inside a triggered rotation fails, `Write`
returns that error with 0 bytes written, the trace shows only the close
call (no rename, no directory probe, no reopen, no write), the handle is
cleared, and filename, threshold, size counter and world are all
unchanged — so the original file is still at its original name. -/
theorem rotation_close_failure (l : Logrotate) (w : World) (env : Env)
    (p : List Nat) (hd : Nat) (e : Err) (hF : l.file = some hd)
    (hLen : (p.length : Int) ≤ l.MaxSize)
    (hOver : l.size + (p.length : Int) > l.MaxSize)
    (hc : env.closeErr = some e) :
    l.write w env p =
      ⟨0, some e, { l with file := none }, w, [Event.closeF hd]⟩ :=
  write_rotation_closefail l w env p hd e hF (not_lt.mpr hLen) (by omega) hc

/-- Witness for `rotation_close_failure`: overflow write with a failing
close. -/
theorem rotation_close_failure_wit :
    lOpen.write wOpen envCloseFail [9, 9, 9] =
      ⟨0, some ⟨"close failed"⟩, { lOpen with file := none }, wOpen,
       [Event.closeF 0]⟩ :=
  rotation_close_failure lOpen wOpen envCloseFail [9, 9, 9] 0 ⟨"close failed"⟩
    rfl (by decide) (by decide) rfl

theorem createFile_tr_ne (l : Logrotate) (w : World) (env : Env) :
    (l.createFile w env).tr ≠ [] := by
  cases hs : env.statRes <;> cases hm : env.mkdirErr <;> cases ho : env.openErr <;>
    simp [Logrotate.createFile, hs, hm, ho]

/-- A payload that passes the oversize check always leads to at least one
OS call, so the rejection branch (whose outcome is an empty trace and an
untouched state) is never taken for it. -/
theorem write_accepted_io (l : Logrotate) (w : World) (env : Env)
    (p : List Nat) (hBig : ¬((p.length : Int) > l.MaxSize)) :
    (l.write w env p).tr ≠ [] := by
  rcases hf : l.file with _ | hd
  · rcases hce : env.createErr with _ | e
    · obtain ⟨_, _, _, _, _, _, htr⟩ := write_create_ok l w env p hf hBig hce
      rw [htr]
      simp
    · obtain ⟨_, _, _, _, htr⟩ := write_create_fail l w env p e hf hBig hce
      rw [htr]
      exact createFile_tr_ne l w env
  · by_cases hOver : (p.length : Int) + l.size > l.MaxSize
    · rcases hcl : env.closeErr with _ | e
      · rcases hre : env.renameErr with _ | e
        · rcases hce : env.createErr with _ | e
          · obtain ⟨_, _, _, _, _, _, htr⟩ :=
              write_rotation_ok l w env p hd hf hBig hOver hcl hre hce
            rw [htr]
            simp
          · obtain ⟨_, _, _, _, htr⟩ :=
              write_rotation_createfail l w env p hd e hf hBig hOver hcl hre hce
            rw [htr]
            simp
        · rw [write_rotation_renamefail l w env p hd e hf hBig hOver hcl hre]
          simp
      · rw [write_rotation_closefail l w env p hd e hf hBig hOver hcl]
        simp
    · rw [write_no_rotation l w env p hd hf hBig hOver]
      simp

/-- C9: the size checks are strict inequalities: (i) a payload whose
length equals `MaxSize` exactly is accepted in every state — `Write` never
takes the rejection branch, whose outcome would be the untouched state
with an empty trace; (ii) a write with `size + len p = MaxSize` exactly
does not rotate: the trace is a single `File.Write` through the existing
handle — in particular a payload of exactly `MaxSize` bytes on a fresh
(empty) file is written directly with no rotation. -/
theorem write_boundary_strict (l l2 : Logrotate) (w w2 : World)
    (env env2 : Env) (p p2 : List Nat) (hd : Nat)
    (hF : l.file = some hd) (h0 : 0 ≤ l.size)
    (hEq : l.size + (p.length : Int) = l.MaxSize)
    (hEq2 : (p2.length : Int) = l2.MaxSize) :
    (l2.write w2 env2 p2).tr ≠ [] ∧
    l2.write w2 env2 p2 ≠
      ⟨0, some ⟨"write length exceeds maximum file size"⟩, l2, w2, []⟩ ∧
    l.write w env p =
      ⟨env.writeN, env.writeErr,
       { l with size := l.size + (env.writeN : Int) },
       { w with written := fun x => if x = hd
                                    then w.written hd + (env.writeN : Int)
                                    else w.written x },
       [Event.fileWrite hd p.length env.writeN]⟩ := by
  have hio := write_accepted_io l2 w2 env2 p2 (by omega)
  refine ⟨hio, ?_, write_no_rotation l w env p hd hF (by omega) (by omega)⟩
  intro hcontra
  apply hio
  rw [hcontra]

/-- Witness for `write_boundary_strict`: an empty current file and a
payload of exactly `MaxSize = 4` bytes, accepted and written directly. -/
theorem write_boundary_strict_wit :
    (lFresh.write wFresh (envOkN 4) [1, 2, 3, 4]).tr ≠ [] ∧
    lFresh.write wFresh (envOkN 4) [1, 2, 3, 4] ≠
      ⟨0, some ⟨"write length exceeds maximum file size"⟩, lFresh, wFresh, []⟩ ∧
    lFresh.write wFresh (envOkN 4) [1, 2, 3, 4] =
      ⟨(envOkN 4).writeN, (envOkN 4).writeErr,
       { lFresh with size := lFresh.size + (((envOkN 4).writeN : Nat) : Int) },
       { wFresh with written := fun x => if x = 5
                                         then wFresh.written 5 + (((envOkN 4).writeN : Nat) : Int)
                                         else wFresh.written x },
       [Event.fileWrite 5 4 (envOkN 4).writeN]⟩ :=
  write_boundary_strict lFresh lFresh wFresh wFresh (envOkN 4) (envOkN 4)
    [1, 2, 3, 4] [1, 2, 3, 4] 5 rfl (by decide) (by decide) (by decide)

/-- C10: a zero-length write with no open file still performs lazy
creation — directory stat, mkdir of the missing parent, file open — resets
the size counter to 0, returns 0 bytes and no error on success, and
triggers no rotation (no rename call in the trace). -/
theorem write_empty_creates (l : Logrotate) (w : World) (env : Env)
    (hF : l.file = none) (hM : 0 ≤ l.MaxSize)
    (hStat : env.statRes = StatRes.notExist) (hmk : env.mkdirErr = none)
    (ho : env.openErr = none) (hN : env.writeN = 0) (hE : env.writeErr = none) :
    (l.write w env []).n = 0 ∧
    (l.write w env []).err = none ∧
    (l.write w env []).l.file = some w.nextId ∧
    (l.write w env []).l.size = 0 ∧
    (l.write w env []).tr =
      [Event.statDir (filepathDir l.Filename),
       Event.mkdir (filepathDir l.Filename),
       Event.openFile l.Filename,
       Event.fileWrite w.nextId 0 0] ∧
    (l.write w env []).tr.filter Event.isRename = [] := by
  have hBig : ¬((([] : List Nat).length : Int) > l.MaxSize) := by
    simp
    omega
  have hce : env.createErr = none := by
    simp [Env.createErr, hStat, hmk, ho]
  obtain ⟨hn, he, hL, _, _, _, htr⟩ := write_create_ok l w env [] hF hBig hce
  refine ⟨?_, ?_, ?_, ?_, ?_, ?_⟩
  · rw [hn, hN]
  · rw [he, hE]
  · rw [hL]
  · rw [hL]
    simp [hN]
  · rw [htr]
    simp [createSteps, hStat, hN]
  · rw [htr]
    cases hs : env.statRes <;> simp [createSteps, hs, Event.isRename]

/-- Witness for `write_empty_creates`: an empty write on a fresh writer
whose parent directory is missing. -/
theorem write_empty_creates_wit :
    ((NewLogrotate "d/app.log" 1).write World.init envCreate []).n = 0 ∧
    ((NewLogrotate "d/app.log" 1).write World.init envCreate []).err = none ∧
    ((NewLogrotate "d/app.log" 1).write World.init envCreate []).l.file = some 0 ∧
    ((NewLogrotate "d/app.log" 1).write World.init envCreate []).l.size = 0 ∧
    ((NewLogrotate "d/app.log" 1).write World.init envCreate []).tr =
      [Event.statDir (filepathDir "d/app.log"),
       Event.mkdir (filepathDir "d/app.log"),
       Event.openFile "d/app.log",
       Event.fileWrite 0 0 0] ∧
    ((NewLogrotate "d/app.log" 1).write World.init envCreate []).tr.filter
        Event.isRename = [] :=
  write_empty_creates (NewLogrotate "d/app.log" 1) World.init envCreate rfl
    (by decide) rfl rfl rfl rfl rfl
